import Mathlib

/-!
Shallow embedding of `src/app.py`, a Streamlit application computing the
explicit (forward) Euler approximation of dy/dx = k*y together with the
closed-form analytical solution and an error analysis.

The stepper `euler_method` is embedded over exact rationals: every claim
about it concerns the algebra of the algorithm (record counts, the update
recurrence, monotonicity on concrete inputs), and the Python float
arithmetic agrees with exact arithmetic on all the concrete scenarios
considered here.  The analytical evaluator needs the real exponential, so
it lives over the reals.  The NaN produced by numpy in the degenerate
relative-error division (0/0, reachable exactly when the analytical value
is zero) is modelled as `Option.none`, and the pandas `Series.max`
aggregate, which skips NaN values and is NaN when every entry is NaN, as
a maximum over the non-`none` entries.
-/

/-- One row of the results DataFrame built by `euler_method`
(columns Step, x, y, dy/dx, Δy of `src/app.py` lines 61-67). -/
structure TraceRecord where
  step : ℕ
  x : ℚ
  y : ℚ
  dy_dx : ℚ
  delta_y : ℚ
deriving DecidableEq, Repr

/-- Python's `int(...)` conversion of a quotient (`src/app.py` line 21)
truncates toward zero: floor for non-negative arguments, ceiling for
negative ones. -/
def pyInt (q : ℚ) : ℤ := if 0 ≤ q then ⌊q⌋ else ⌈q⌉

/-- The `for i in range(1, n_steps + 1)` loop of `euler_method`
(`src/app.py` lines 42-58): `m` iterations remain, `i` is the index of the
next step, `(x, y)` is the current point.  Each iteration computes
`dy_dx = k * y`, `delta_y = h * dy_dx`, advances `x` and `y`, and appends
the record `(i, x_new, y_new, dy_dx, delta_y)`; note the stored `dy_dx`
was evaluated at the previous `y` while the stored `y` is the advanced
one. -/
def eulerLoop (k h : ℚ) : ℕ → ℕ → ℚ → ℚ → List TraceRecord
  | 0, _, _, _ => []
  | m + 1, i, x, y =>
    ⟨i, x + h, y + h * (k * y), k * y, h * (k * y)⟩ ::
      eulerLoop k h m (i + 1) (x + h) (y + h * (k * y))

/-- `euler_method` of `src/app.py` (lines 6-69): computes
`n_steps = int((x_target - x0) / h)`, emits the initial record
`(0, x0, y0, k*y0, 0)`, then runs the iteration loop.  `range(1, n+1)` is
empty when `n_steps <= 0`, hence the `Int.toNat` iteration count.  The
resulting list is the DataFrame's rows in order. -/
def euler_method (k x0 y0 x_target h : ℚ) : List TraceRecord :=
  ⟨0, x0, y0, k * y0, 0⟩ ::
    eulerLoop k h (pyInt ((x_target - x0) / h)).toNat 1 x0 y0

/-- `analytical_solution` of `src/app.py` (lines 71-76): the vectorized
evaluation `y0 * exp(k * (x_values - x0))`, elementwise over the sequence
of sample points. -/
noncomputable def analytical_solution (k x0 y0 : ℝ) (x_values : List ℝ) : List ℝ :=
  x_values.map fun x => y0 * Real.exp (k * (x - x0))

/-- The two rejection conditions of the input validation in `main`
(`src/app.py` lines 134-141): target not greater than the initial x, and
non-positive step size. -/
inductive InvalidParameters where
  | targetNotGreater
  | stepNotPositive
deriving DecidableEq, Repr

/-- The validated entry point `compute_trace` of the spec: `main`
(`src/app.py` lines 134-148) rejects `x_target <= x0` and then `h <= 0`,
returning before `euler_method` is ever invoked; otherwise the full trace
is produced. -/
def compute_trace (k x0 y0 x_target h : ℚ) :
    Except InvalidParameters (List TraceRecord) :=
  if x_target ≤ x0 then .error .targetNotGreater
  else if h ≤ 0 then .error .stepNotPositive
  else .ok (euler_method k x0 y0 x_target h)

/-- Analytical values at the x values of the trace
(`src/app.py` line 204). -/
noncomputable def y_analytical_points (k x0 y0 : ℚ) (trace : List TraceRecord) :
    List ℝ :=
  analytical_solution (k : ℝ) (x0 : ℝ) (y0 : ℝ) (trace.map fun r => (r.x : ℝ))

/-- Per-record relative error percentage (`src/app.py` line 206):
`abs((y_euler - y_analytical) / y_analytical) * 100`.  When the analytical
value is exactly zero the numpy division produces NaN (on every reachable
such input the numerator is also zero); the NaN entry is modelled as
`none`. -/
noncomputable def relative_errors (k x0 y0 : ℚ) (trace : List TraceRecord) :
    List (Option ℝ) :=
  List.zipWith
    (fun yE yA => if yA = 0 then none else some (|(yE - yA) / yA| * 100))
    (trace.map fun r => (r.y : ℝ))
    (y_analytical_points k x0 y0 trace)

/-- The maximum relative error summary (`src/app.py` line 223):
`relative_errors.max()`.  The pandas `Series.max` skips NaN entries and
returns NaN when every entry is NaN; modelled as the maximum of the
non-`none` entries, `none` when no entry remains. -/
noncomputable def max_rel_error (k x0 y0 : ℚ) (trace : List TraceRecord) :
    Option ℝ :=
  ((relative_errors k x0 y0 trace).filterMap id).max?

/-- The Euler update recurrence between two consecutive records, exactly
as the loop body of `src/app.py` lines 42-58 realises it. -/
def EulerStep (k h : ℚ) (p q : TraceRecord) : Prop :=
  q.step = p.step + 1 ∧ q.dy_dx = k * p.y ∧ q.delta_y = h * q.dy_dx ∧
  q.x = p.x + h ∧ q.y = p.y + q.delta_y

theorem eulerLoop_length (k h : ℚ) (m : ℕ) :
    ∀ (i : ℕ) (x y : ℚ), (eulerLoop k h m i x y).length = m := by
  induction m with
  | zero => intro i x y; rfl
  | succ m ih => intro i x y; simp [eulerLoop, ih]

theorem euler_method_length (k x0 y0 x_target h : ℚ) :
    (euler_method k x0 y0 x_target h).length =
      (pyInt ((x_target - x0) / h)).toNat + 1 := by
  simp [euler_method, eulerLoop_length]

theorem eulerLoop_getD (k h : ℚ) (d : TraceRecord) (m : ℕ) :
    ∀ (j i : ℕ) (x y : ℚ), j < m →
      (eulerLoop k h m i x y).getD j d =
        ⟨i + j, x + ((j : ℚ) + 1) * h, y * (1 + h * k) ^ (j + 1),
         k * (y * (1 + h * k) ^ j), h * (k * (y * (1 + h * k) ^ j))⟩ := by
  induction m with
  | zero => intro j i x y hj; exact absurd hj (Nat.not_lt_zero j)
  | succ m ih =>
    intro j i x y hj
    cases j with
    | zero =>
      rw [show eulerLoop k h (m + 1) i x y =
            (⟨i, x + h, y + h * (k * y), k * y, h * (k * y)⟩ : TraceRecord) ::
              eulerLoop k h m (i + 1) (x + h) (y + h * (k * y)) from rfl,
          List.getD_cons_zero]
      simp only [TraceRecord.mk.injEq]
      refine ⟨rfl, by push_cast; ring, by ring, by ring, by ring⟩
    | succ j =>
      rw [show eulerLoop k h (m + 1) i x y =
            (⟨i, x + h, y + h * (k * y), k * y, h * (k * y)⟩ : TraceRecord) ::
              eulerLoop k h m (i + 1) (x + h) (y + h * (k * y)) from rfl,
          List.getD_cons_succ]
      rw [ih j (i + 1) (x + h) (y + h * (k * y)) (Nat.lt_of_succ_lt_succ hj)]
      simp only [TraceRecord.mk.injEq]
      refine ⟨by omega, by push_cast; ring, by ring, by ring, by ring⟩

theorem eulerLoop_chain (k h : ℚ) (m : ℕ) :
    ∀ (i : ℕ) (x y d dy : ℚ),
      List.Chain' (EulerStep k h)
        ((⟨i, x, y, d, dy⟩ : TraceRecord) :: eulerLoop k h m (i + 1) x y) := by
  induction m with
  | zero => intro i x y d dy; simp [eulerLoop]
  | succ m ih =>
    intro i x y d dy
    rw [show eulerLoop k h (m + 1) (i + 1) x y =
          (⟨i + 1, x + h, y + h * (k * y), k * y, h * (k * y)⟩ : TraceRecord) ::
            eulerLoop k h m (i + 2) (x + h) (y + h * (k * y)) from rfl]
    exact List.chain'_cons.mpr
      ⟨⟨rfl, rfl, rfl, rfl, rfl⟩, ih (i + 1) (x + h) (y + h * (k * y)) (k * y) (h * (k * y))⟩

theorem euler_method_chain (k x0 y0 x_target h : ℚ) :
    List.Chain' (EulerStep k h) (euler_method k x0 y0 x_target h) :=
  eulerLoop_chain k h _ 0 x0 y0 (k * y0) 0

theorem eulerLoop_k_zero (h : ℚ) (m : ℕ) :
    ∀ (i : ℕ) (x y : ℚ), ∀ r ∈ eulerLoop 0 h m i x y,
      r.dy_dx = 0 ∧ r.delta_y = 0 ∧ r.y = y := by
  induction m with
  | zero => intro i x y r hr; simp [eulerLoop] at hr
  | succ m ih =>
    intro i x y r hr
    rw [show eulerLoop 0 h (m + 1) i x y =
          (⟨i, x + h, y + h * (0 * y), 0 * y, h * (0 * y)⟩ : TraceRecord) ::
            eulerLoop 0 h m (i + 1) (x + h) (y + h * (0 * y)) from rfl] at hr
    rcases List.mem_cons.mp hr with rfl | hr
    · refine ⟨by ring, by ring, by ring⟩
    · have := ih (i + 1) (x + h) (y + h * (0 * y)) r hr
      simpa using this

theorem relative_errors_y0_zero (k x0 : ℚ) (l : List TraceRecord) :
    relative_errors k x0 0 l = l.map fun _ => none := by
  induction l with
  | nil => rfl
  | cons r t ih =>
    have hstep : relative_errors k x0 0 (r :: t) =
        none :: relative_errors k x0 0 t := by
      simp [relative_errors, y_analytical_points, analytical_solution]
    rw [hstep, ih, List.map_cons]

/-- C1: for every input with x_target > x0 and h > 0, `euler_method`
returns a trace with exactly floor((x_target - x0)/h) + 1 records, and
record 0 equals (step = 0, x = x0, y = y0, dy_dx = k*y0, delta_y = 0). -/
theorem euler_trace_length_initial (k x0 y0 x_target h : ℚ)
    (hx : x0 < x_target) (hh : 0 < h) :
    ((euler_method k x0 y0 x_target h).length : ℤ) =
        ⌊(x_target - x0) / h⌋ + 1 ∧
      (euler_method k x0 y0 x_target h).getD 0 ⟨0, 0, 0, 0, 0⟩ =
        ⟨0, x0, y0, k * y0, 0⟩ := by
  have hq : 0 ≤ (x_target - x0) / h :=
    le_of_lt (div_pos (by linarith) hh)
  have h1 : pyInt ((x_target - x0) / h) = ⌊(x_target - x0) / h⌋ := if_pos hq
  have h2 : (0 : ℤ) ≤ ⌊(x_target - x0) / h⌋ := Int.floor_nonneg.mpr hq
  constructor
  · rw [euler_method_length, h1]
    omega
  · rfl

theorem euler_trace_length_initial_witness :
    (0 : ℚ) < 2 ∧ (0 : ℚ) < 1 ∧
      (((euler_method 1 0 1 2 1).length : ℤ) = ⌊((2 : ℚ) - 0) / 1⌋ + 1 ∧
        (euler_method 1 0 1 2 1).getD 0 ⟨0, 0, 0, 0, 0⟩ = ⟨0, 0, 1, 1 * 1, 0⟩) :=
  ⟨by norm_num, by norm_num, euler_trace_length_initial 1 0 1 2 1 (by norm_num) (by norm_num)⟩

/-- C2 counterexample: the claim that every record's stored dy_dx equals
k times that same record's y fails at k = 1, x0 = 0, y0 = 1, x_target = 1,
h = 1: record 1 stores dy_dx = 1 (evaluated at the previous y = 1) but
y = 2, so dy_dx is not k * y there. -/
theorem dy_dx_self_consistency_fails :
    ((euler_method 1 0 1 1 1).getD 1 ⟨0, 0, 0, 0, 0⟩).dy_dx ≠
      1 * ((euler_method 1 0 1 1 1).getD 1 ⟨0, 0, 0, 0, 0⟩).y := by
  norm_num [euler_method, eulerLoop, pyInt]

/-- C2 amended: record 0 stores dy_dx = k * y of its own record, and for
every i the record i+1 stores dy_dx = k times the PREVIOUS record's y
(the y at the start of the interval), not its own y. -/
theorem dy_dx_consistency_amended (k x0 y0 x_target h : ℚ) (i : ℕ)
    (hi : i + 1 < (euler_method k x0 y0 x_target h).length) :
    ((euler_method k x0 y0 x_target h).getD 0 ⟨0, 0, 0, 0, 0⟩).dy_dx =
        k * ((euler_method k x0 y0 x_target h).getD 0 ⟨0, 0, 0, 0, 0⟩).y ∧
      ((euler_method k x0 y0 x_target h).getD (i + 1) ⟨0, 0, 0, 0, 0⟩).dy_dx =
        k * ((euler_method k x0 y0 x_target h).getD i ⟨0, 0, 0, 0, 0⟩).y := by
  refine ⟨rfl, ?_⟩
  have hch := List.chain'_iff_get.mp (euler_method_chain k x0 y0 x_target h) i (by omega)
  simp only [List.get_eq_getElem] at hch
  rw [List.getD_eq_getElem _ _ hi, List.getD_eq_getElem _ _ (by omega : i < _)]
  exact hch.2.1

theorem dy_dx_consistency_amended_witness :
    0 + 1 < (euler_method 1 0 1 2 1).length ∧
      (((euler_method 1 0 1 2 1).getD 0 ⟨0, 0, 0, 0, 0⟩).dy_dx =
          1 * ((euler_method 1 0 1 2 1).getD 0 ⟨0, 0, 0, 0, 0⟩).y ∧
        ((euler_method 1 0 1 2 1).getD (0 + 1) ⟨0, 0, 0, 0, 0⟩).dy_dx =
          1 * ((euler_method 1 0 1 2 1).getD 0 ⟨0, 0, 0, 0, 0⟩).y) :=
  ⟨by norm_num [euler_method_length, pyInt],
    dy_dx_consistency_amended 1 0 1 2 1 0 (by norm_num [euler_method_length, pyInt])⟩

/-- C3: called with h <= 0 or x_target <= x0, the validated entry point
rejects the request with an InvalidParameters condition and produces no
trace: the result is an error, never an `ok` carrying records. -/
theorem compute_trace_rejects_invalid (k x0 y0 x_target h : ℚ)
    (hbad : h ≤ 0 ∨ x_target ≤ x0) :
    (∃ e : InvalidParameters,
        compute_trace k x0 y0 x_target h = Except.error e) ∧
      ∀ t : List TraceRecord,
        compute_trace k x0 y0 x_target h ≠ Except.ok t := by
  have herr : ∃ e : InvalidParameters,
      compute_trace k x0 y0 x_target h = Except.error e := by
    unfold compute_trace
    by_cases hx : x_target ≤ x0
    · exact ⟨.targetNotGreater, by simp [hx]⟩
    · have hh : h ≤ 0 := hbad.resolve_right hx
      exact ⟨.stepNotPositive, by simp [hx, hh]⟩
  obtain ⟨e, he⟩ := herr
  exact ⟨⟨e, he⟩, fun t ht => by rw [he] at ht; exact Except.noConfusion ht⟩

theorem compute_trace_rejects_invalid_witness :
    ((0 : ℚ) ≤ 0 ∨ (2 : ℚ) ≤ 0) ∧
      ((∃ e : InvalidParameters, compute_trace 1 0 1 2 0 = Except.error e) ∧
        ∀ t : List TraceRecord, compute_trace 1 0 1 2 0 ≠ Except.ok t) :=
  ⟨Or.inl le_rfl, compute_trace_rejects_invalid 1 0 1 2 0 (Or.inl le_rfl)⟩

/-- C10: `euler_method` called directly with h > 0 and x_target <= x0
does not fail: the computed step count int((x_target - x0)/h) is
non-positive, the loop body never runs, and the result is exactly the
one-element trace holding the initial record (0, x0, y0, k*y0, 0). -/
theorem euler_method_target_not_greater (k x0 y0 x_target h : ℚ)
    (hh : 0 < h) (hx : x_target ≤ x0) :
    euler_method k x0 y0 x_target h = [⟨0, x0, y0, k * y0, 0⟩] := by
  have hq : (x_target - x0) / h ≤ 0 :=
    div_nonpos_iff.mpr (Or.inr ⟨by linarith, le_of_lt hh⟩)
  have hz : (pyInt ((x_target - x0) / h)).toNat = 0 := by
    unfold pyInt
    split
    · next h0 =>
      have h00 : (x_target - x0) / h = 0 := le_antisymm hq h0
      rw [h00]
      simp
    · exact Int.toNat_of_nonpos (Int.ceil_le.mpr (by exact_mod_cast hq))
  rw [euler_method, hz]
  rfl

theorem euler_method_target_not_greater_witness :
    (0 : ℚ) < 2 ∧ (1 : ℚ) ≤ 1 ∧
      euler_method 3 1 5 1 2 = [⟨0, 1, 5, 3 * 5, 0⟩] :=
  ⟨by norm_num, le_rfl,
    euler_method_target_not_greater 3 1 5 1 2 (by norm_num) le_rfl⟩

theorem euler_method_getD (k x0 y0 x_target h : ℚ) (d : TraceRecord) (j : ℕ)
    (hj : j < (pyInt ((x_target - x0) / h)).toNat) :
    (euler_method k x0 y0 x_target h).getD (j + 1) d =
      ⟨1 + j, x0 + ((j : ℚ) + 1) * h, y0 * (1 + h * k) ^ (j + 1),
       k * (y0 * (1 + h * k) ^ j), h * (k * (y0 * (1 + h * k) ^ j))⟩ := by
  unfold euler_method
  rw [List.getD_cons_succ, eulerLoop_getD k h d _ j 1 x0 y0 hj]

/-- C4: for every valid input and every step i+1 of the trace, the Euler
recurrence holds between record i+1 and record i: the stored dy_dx is k
times the previous record's y, delta_y is h times that dy_dx, x advances
by exactly h from the previous record's x, and y is the previous y plus
delta_y. -/
theorem euler_recurrence (k x0 y0 x_target h : ℚ) (hx : x0 < x_target)
    (hh : 0 < h) (i : ℕ)
    (hi : i + 1 < (euler_method k x0 y0 x_target h).length) :
    ((euler_method k x0 y0 x_target h).getD (i + 1) ⟨0, 0, 0, 0, 0⟩).dy_dx =
        k * ((euler_method k x0 y0 x_target h).getD i ⟨0, 0, 0, 0, 0⟩).y ∧
      ((euler_method k x0 y0 x_target h).getD (i + 1) ⟨0, 0, 0, 0, 0⟩).delta_y =
        h * ((euler_method k x0 y0 x_target h).getD (i + 1) ⟨0, 0, 0, 0, 0⟩).dy_dx ∧
      ((euler_method k x0 y0 x_target h).getD (i + 1) ⟨0, 0, 0, 0, 0⟩).x =
        ((euler_method k x0 y0 x_target h).getD i ⟨0, 0, 0, 0, 0⟩).x + h ∧
      ((euler_method k x0 y0 x_target h).getD (i + 1) ⟨0, 0, 0, 0, 0⟩).y =
        ((euler_method k x0 y0 x_target h).getD i ⟨0, 0, 0, 0, 0⟩).y +
          ((euler_method k x0 y0 x_target h).getD (i + 1) ⟨0, 0, 0, 0, 0⟩).delta_y := by
  have hch := List.chain'_iff_get.mp (euler_method_chain k x0 y0 x_target h) i (by omega)
  simp only [List.get_eq_getElem] at hch
  rw [List.getD_eq_getElem _ _ hi, List.getD_eq_getElem _ _ (by omega : i < _)]
  exact ⟨hch.2.1, hch.2.2.1, hch.2.2.2.1, hch.2.2.2.2⟩

theorem euler_recurrence_witness :
    (0 : ℚ) < 2 ∧ (0 : ℚ) < 1 ∧ 0 + 1 < (euler_method 1 0 1 2 1).length ∧
      (((euler_method 1 0 1 2 1).getD (0 + 1) ⟨0, 0, 0, 0, 0⟩).dy_dx =
          1 * ((euler_method 1 0 1 2 1).getD 0 ⟨0, 0, 0, 0, 0⟩).y ∧
        ((euler_method 1 0 1 2 1).getD (0 + 1) ⟨0, 0, 0, 0, 0⟩).delta_y =
          1 * ((euler_method 1 0 1 2 1).getD (0 + 1) ⟨0, 0, 0, 0, 0⟩).dy_dx ∧
        ((euler_method 1 0 1 2 1).getD (0 + 1) ⟨0, 0, 0, 0, 0⟩).x =
          ((euler_method 1 0 1 2 1).getD 0 ⟨0, 0, 0, 0, 0⟩).x + 1 ∧
        ((euler_method 1 0 1 2 1).getD (0 + 1) ⟨0, 0, 0, 0, 0⟩).y =
          ((euler_method 1 0 1 2 1).getD 0 ⟨0, 0, 0, 0, 0⟩).y +
            ((euler_method 1 0 1 2 1).getD (0 + 1) ⟨0, 0, 0, 0, 0⟩).delta_y) :=
  ⟨by norm_num, by norm_num,
    by rw [euler_method_length]
       have hp : pyInt (((2 : ℚ) - 0) / 1) = 2 := by norm_num [pyInt]
       rw [hp]
       omega,
    euler_recurrence 1 0 1 2 1 (by norm_num) (by norm_num) 0
      (by rw [euler_method_length]
          have hp : pyInt (((2 : ℚ) - 0) / 1) = 2 := by norm_num [pyInt]
          rw [hp]
          omega)⟩

/-- C5: `analytical_solution` evaluates to y0 * e^(k*(x - x0)) elementwise
over the whole sequence of sample points, preserving the sequence length;
being a Lean function over the reals it is pure and total. -/
theorem analytical_solution_elementwise (k x0 y0 : ℝ) (x_values : List ℝ)
    (i : ℕ) (hi : i < x_values.length) :
    (analytical_solution k x0 y0 x_values).length = x_values.length ∧
      (analytical_solution k x0 y0 x_values).getD i 0 =
        y0 * Real.exp (k * (x_values.getD i 0 - x0)) := by
  constructor
  · simp [analytical_solution]
  · rw [List.getD_eq_getElem _ _ (by simpa [analytical_solution] using hi),
        List.getD_eq_getElem _ _ hi]
    simp [analytical_solution]

theorem analytical_solution_elementwise_witness :
    0 < [(3 : ℝ)].length ∧
      ((analytical_solution 1 0 2 [(3 : ℝ)]).length = [(3 : ℝ)].length ∧
        (analytical_solution 1 0 2 [(3 : ℝ)]).getD 0 0 =
          2 * Real.exp (1 * ([(3 : ℝ)].getD 0 0 - 0))) :=
  ⟨by norm_num, analytical_solution_elementwise 1 0 2 [(3 : ℝ)] 0 (by norm_num)⟩

/-- C6: scenario k = 1/10, x0 = 0, y0 = 1, x_target = 2, h = 1/10: the
trace has 21 records (20 steps), record 1 is (1, 0.1, 1.01, 0.1, 0.01),
and the final record has step 20, x = 2 and y within 10^-6 of 1.220190
(the exact value being 1.01^20). -/
theorem euler_scenario_one :
    (euler_method (1/10) 0 1 2 (1/10)).length = 21 ∧
      (euler_method (1/10) 0 1 2 (1/10)).getD 1 ⟨0, 0, 0, 0, 0⟩ =
        ⟨1, 1/10, 101/100, 1/10, 1/100⟩ ∧
      ((euler_method (1/10) 0 1 2 (1/10)).getD 20 ⟨0, 0, 0, 0, 0⟩).step = 20 ∧
      ((euler_method (1/10) 0 1 2 (1/10)).getD 20 ⟨0, 0, 0, 0, 0⟩).x = 2 ∧
      |((euler_method (1/10) 0 1 2 (1/10)).getD 20 ⟨0, 0, 0, 0, 0⟩).y -
          1220190 / 1000000| < 1 / 1000000 := by
  have hp : pyInt (((2 : ℚ) - 0) / (1/10)) = 20 := by norm_num [pyInt]
  have hn : (pyInt (((2 : ℚ) - 0) / (1/10))).toNat = 20 := by rw [hp]; rfl
  have h1 := euler_method_getD (1/10) 0 1 2 (1/10) ⟨0, 0, 0, 0, 0⟩ 0
    (by rw [hn]; norm_num)
  have h20 := euler_method_getD (1/10) 0 1 2 (1/10) ⟨0, 0, 0, 0, 0⟩ 19
    (by rw [hn]; norm_num)
  refine ⟨?_, ?_, ?_, ?_, ?_⟩
  · rw [euler_method_length, hn]
  · rw [show (1 : ℕ) = 0 + 1 from rfl, h1]
    simp only [TraceRecord.mk.injEq]
    norm_num
  · rw [show (20 : ℕ) = 19 + 1 from rfl, h20]
  · rw [show (20 : ℕ) = 19 + 1 from rfl, h20]
    norm_num
  · rw [show (20 : ℕ) = 19 + 1 from rfl, h20]
    rw [abs_sub_lt_iff]
    constructor <;> norm_num

/-- C7: if the analytical value at some trace point is exactly zero, then
necessarily y0 = 0, the relative-error entry at that point is the
undefined/NaN marker rather than a raised error, and the
maximum-relative-error aggregate, which only ranges over defined entries,
is itself undefined (here every point is degenerate). -/
theorem degenerate_analytical_policy (k x0 y0 x_target h : ℚ) (i : ℕ)
    (hi : i < (euler_method k x0 y0 x_target h).length)
    (hz : (y_analytical_points k x0 y0
        (euler_method k x0 y0 x_target h)).getD i 1 = 0) :
    y0 = 0 ∧
      (relative_errors k x0 y0
          (euler_method k x0 y0 x_target h)).getD i (some 0) = none ∧
      max_rel_error k x0 y0 (euler_method k x0 y0 x_target h) = none := by
  have hlen : (y_analytical_points k x0 y0
      (euler_method k x0 y0 x_target h)).length =
      (euler_method k x0 y0 x_target h).length := by
    simp [y_analytical_points, analytical_solution]
  have hy0 : y0 = 0 := by
    rw [List.getD_eq_getElem _ _ (by rw [hlen]; exact hi)] at hz
    simp only [y_analytical_points, analytical_solution, List.map_map,
      List.getElem_map, Function.comp] at hz
    rcases mul_eq_zero.mp hz with h0 | h0
    · exact_mod_cast h0
    · exact absurd h0 (Real.exp_ne_zero _)
  subst hy0
  refine ⟨rfl, ?_, ?_⟩
  · rw [relative_errors_y0_zero,
      List.getD_eq_getElem _ _ (by simpa using hi)]
    simp
  · rw [max_rel_error, relative_errors_y0_zero]
    simp

theorem degenerate_analytical_policy_witness :
    0 < (euler_method 1 0 0 1 1).length ∧
      (y_analytical_points 1 0 0 (euler_method 1 0 0 1 1)).getD 0 1 = 0 ∧
      ((0 : ℚ) = 0 ∧
        (relative_errors 1 0 0 (euler_method 1 0 0 1 1)).getD 0 (some 0) = none ∧
        max_rel_error 1 0 0 (euler_method 1 0 0 1 1) = none) :=
  ⟨by simp [euler_method],
    by simp [euler_method, y_analytical_points, analytical_solution],
    degenerate_analytical_policy 1 0 0 1 1 0 (by simp [euler_method])
      (by simp [euler_method, y_analytical_points, analytical_solution])⟩

/-- C8: with k = 0 and any valid parameters, every record of the trace
has dy_dx = 0, delta_y = 0 and y exactly equal to y0. -/
theorem euler_k_zero_constant (x0 y0 x_target h : ℚ)
    (hx : x0 < x_target) (hh : 0 < h) :
    ∀ r ∈ euler_method 0 x0 y0 x_target h,
      r.dy_dx = 0 ∧ r.delta_y = 0 ∧ r.y = y0 := by
  intro r hr
  rw [show euler_method 0 x0 y0 x_target h =
        (⟨0, x0, y0, 0 * y0, 0⟩ : TraceRecord) ::
          eulerLoop 0 h (pyInt ((x_target - x0) / h)).toNat 1 x0 y0 from rfl] at hr
  rcases List.mem_cons.mp hr with rfl | hr
  · exact ⟨by simp, rfl, rfl⟩
  · exact eulerLoop_k_zero h _ 1 x0 y0 r hr

theorem euler_k_zero_constant_witness :
    (0 : ℚ) < 1 ∧ (0 : ℚ) < 1 ∧
      ∀ r ∈ euler_method 0 0 5 1 1,
        r.dy_dx = 0 ∧ r.delta_y = 0 ∧ r.y = 5 :=
  ⟨by norm_num, by norm_num,
    euler_k_zero_constant 0 5 1 1 (by norm_num) (by norm_num)⟩

/-- C9: scenario k = -1/2, x0 = 0, y0 = 10, x_target = 1, h = 1/4: the
trace has 5 records (4 steps) and the y values decrease strictly at every
consecutive pair. -/
theorem euler_scenario_decay :
    (euler_method (-1/2) 0 10 1 (1/4)).length = 5 ∧
      List.Chain' (fun a b => b < a)
        ((euler_method (-1/2) 0 10 1 (1/4)).map TraceRecord.y) := by
  have hp : pyInt (((1 : ℚ) - 0) / (1/4)) = 4 := by norm_num [pyInt]
  constructor
  · rw [euler_method_length, hp]
    rfl
  · norm_num [euler_method, eulerLoop, pyInt]
